import Mathlib

/-!
# SimQuant — SMA crossover backtester, shallow embedding

A shallow embedding of `src/sma_backtest.py`.  Prices and the signal
pipeline are modelled over `ℚ` (pandas floats carry exact decimal literals in
every concrete series considered here); the performance report, whose code
takes real powers and square roots, is modelled over `ℝ`.  A pandas `NaN`
cell is modelled as `none`; a column is a `List`.
-/

namespace SMA

/-- Mean of the `w` closes ending at row `i` (the full rolling window). -/
def windowMean (w : Nat) (close : List ℚ) (i : Nat) : ℚ :=
  ((close.drop (i + 1 - w)).take w).sum / (w : ℚ)

/-- `df['Close'].rolling(window=w).mean()` at row `i`: defined (non-NaN)
exactly when the window is full, i.e. `w ≤ i + 1`, and `i` is a row of the
frame; its value is then the mean of the `w` closes ending at `i`. -/
def sma (w : Nat) (close : List ℚ) (i : Nat) : Option ℚ :=
  if w ≤ i + 1 ∧ i < close.length then some (windowMean w close i) else none

/-- Lines 18-19: the Signal column starts at 0 and is set to 1 on the rows
where `SMA_short > SMA_long`.  A pandas comparison against NaN is False, so
the signal is 0 wherever either rolling mean is undefined. -/
def signal (sw lw : Nat) (close : List ℚ) (i : Nat) : ℤ :=
  match sma sw close i, sma lw close i with
  | some s, some l => if l < s then 1 else 0
  | _, _ => 0

/-- The Signal column as a list, one entry per row of the frame. -/
def signalList (sw lw : Nat) (close : List ℚ) : List ℤ :=
  (List.range close.length).map (signal sw lw close)

/-- The rolling-mean column as a list, one entry per row of the frame. -/
def smaList (w : Nat) (close : List ℚ) : List (Option ℚ) :=
  (List.range close.length).map (sma w close)

/-- `Series.replace(to_replace=0, method='ffill')`: every 0 entry is replaced
by the nearest earlier entry that is not 0; a leading run of 0 with no earlier
non-zero entry is left unchanged.  The accumulator holds the most recent
non-zero entry seen so far. -/
def replaceZeroFfillAux (acc : Option ℤ) : List ℤ → List ℤ
  | [] => []
  | x :: xs =>
    if x = 0 then
      match acc with
      | some v => v :: replaceZeroFfillAux (some v) xs
      | none => 0 :: replaceZeroFfillAux none xs
    else
      x :: replaceZeroFfillAux (some x) xs

/-- `Series.replace(to_replace=0, method='ffill')` from a fresh start. -/
def replaceZeroFfill (xs : List ℤ) : List ℤ := replaceZeroFfillAux none xs

/-- Line 21-22: `df['Position'] = df['Signal'].replace(to_replace=0,
method='ffill')` followed by `fillna(0, inplace=True)`; the fillna is a no-op
because the integer Signal column holds no NaN. -/
def positionList (sw lw : Nat) (close : List ℚ) : List ℤ :=
  replaceZeroFfill (signalList sw lw close)

/-- The DataFrame threaded through the pipeline: the caller-owned index and
Close column plus the columns the engine writes. -/
structure Frame where
  dates : List Nat
  close : List ℚ
  smaShort : List (Option ℚ)
  smaLong : List (Option ℚ)
  signalCol : List ℤ
  positionCol : List ℤ
  dailyRet : List (Option ℚ)
  stratRet : List (Option ℚ)

/-- `calculate_signals(df, short_window, long_window)`: writes the two SMA
columns, the Signal column and the Position column; no other column of the
frame is assigned. -/
def calculate_signals (df : Frame) (sw lw : Nat) : Frame :=
  { df with
    smaShort := smaList sw df.close
    smaLong := smaList lw df.close
    signalCol := signalList sw lw df.close
    positionCol := positionList sw lw df.close }

/-- Helper for `pct_change`: each entry divided by its predecessor, minus 1;
`prev` is the entry just before the head. -/
def pctChangeAux (prev : ℚ) : List ℚ → List (Option ℚ)
  | [] => []
  | x :: xs => some (x / prev - 1) :: pctChangeAux x xs

/-- `Series.pct_change()`: NaN at row 0, `close[i]/close[i-1] - 1` for
`i ≥ 1`. -/
def pctChange : List ℚ → List (Option ℚ)
  | [] => []
  | x :: xs => none :: pctChangeAux x xs

/-- Line 48: `df['Strategy Return'] = df['Daily Return'] * df['Position']`,
the row-wise product; NaN times anything is NaN. -/
def strategyReturnList (daily : List (Option ℚ)) (pos : List ℤ) : List (Option ℚ) :=
  List.zipWith (fun d p => d.map (fun x => x * (p : ℚ))) daily pos

/-- `calculate_returns(df)`: writes the Daily Return and Strategy Return
columns; no other column of the frame is assigned. -/
def calculate_returns (df : Frame) : Frame :=
  { df with
    dailyRet := pctChange df.close
    stratRet := strategyReturnList (pctChange df.close) df.positionCol }

/-- Helper for `Series.shift(1)`: `prev` is the entry just before the head. -/
def shift1Aux (prev : ℤ) : List ℤ → List (Option ℤ)
  | [] => []
  | x :: xs => some prev :: shift1Aux x xs

/-- `Series.shift(1)`: NaN at row 0, the previous entry afterwards. -/
def shift1 : List ℤ → List (Option ℤ)
  | [] => []
  | x :: xs => none :: shift1Aux x xs

/-- Line 27: `(df['Signal'] == 1) & (df['Signal'].shift(1) == 0)`; a pandas
comparison against NaN is False. -/
def buySignals (sig : List ℤ) : List Bool :=
  List.zipWith (fun s prev => s == 1 && prev == some 0) sig (shift1 sig)

/-- Line 28: `(df['Signal'] == 0) & (df['Signal'].shift(1) == 1)`. -/
def sellSignals (sig : List ℤ) : List Bool :=
  List.zipWith (fun s prev => s == 0 && prev == some 1) sig (shift1 sig)

/-- Line 70: `daily_returns.dropna()` keeps the defined entries in order. -/
def dropna (xs : List (Option ℝ)) : List ℝ := xs.filterMap id

/-- Line 74: `(1 + daily_returns).prod() - 1`. -/
def cumulativeReturn (rs : List ℝ) : ℝ := (rs.map (fun r => 1 + r)).prod - 1

/-- Lines 77-80: the annualisation branch — geometric annualisation for more
than 252 observations, the cumulative return unchanged otherwise. -/
noncomputable def annualizedReturn (rs : List ℝ) : ℝ :=
  if 252 < rs.length then
    (1 + cumulativeReturn rs) ^ ((252 : ℝ) / (rs.length : ℝ)) - 1
  else
    cumulativeReturn rs

/-- Arithmetic mean of a series, as `Series.mean()`. -/
noncomputable def mean (rs : List ℝ) : ℝ := rs.sum / (rs.length : ℝ)

/-- `Series.std()`: the sample standard deviation (ddof = 1). -/
noncomputable def sampleStd (rs : List ℝ) : ℝ :=
  Real.sqrt ((rs.map (fun r => (r - mean rs) ^ 2)).sum / ((rs.length : ℝ) - 1))

/-- Line 82: `daily_returns.std() * np.sqrt(252)`. -/
noncomputable def annualizedVolatility (rs : List ℝ) : ℝ :=
  sampleStd rs * Real.sqrt 252

/-- Line 85: `annualized_return / annualized_volatility if
annualized_volatility != 0 else 0`. -/
noncomputable def sharpeRatio (rs : List ℝ) : ℝ :=
  if annualizedVolatility rs ≠ 0 then annualizedReturn rs / annualizedVolatility rs
  else 0

/-- Helper for `Series.cumprod()`: running product with accumulator. -/
def cumprodAux (acc : ℝ) : List ℝ → List ℝ
  | [] => []
  | x :: xs => acc * x :: cumprodAux (acc * x) xs

/-- `Series.cumprod()`: entry `i` is the product of entries `0..i`. -/
def cumprod (xs : List ℝ) : List ℝ := cumprodAux 1 xs

/-- Helper for `Series.cummax()`: running maximum with accumulator. -/
def cummaxAux (acc : ℝ) : List ℝ → List ℝ
  | [] => []
  | x :: xs => max acc x :: cummaxAux (max acc x) xs

/-- `Series.cummax()`: entry `i` is the maximum of entries `0..i`. -/
def cummax : List ℝ → List ℝ
  | [] => []
  | x :: xs => x :: cummaxAux x xs

/-- `Series.min()` of a nonempty series (0 for the empty one, never used). -/
def listMin : List ℝ → ℝ
  | [] => 0
  | x :: xs => xs.foldl min x

/-- `Series.max()` of a nonempty series (0 for the empty one, never used). -/
def listMax : List ℝ → ℝ
  | [] => 0
  | x :: xs => xs.foldl max x

/-- Line 87: the cumulative wealth curve `(1 + daily_returns).cumprod()`. -/
def wealthCurve (rs : List ℝ) : List ℝ := cumprod (rs.map (fun r => 1 + r))

/-- Lines 88-89: `peak = cumulative.cummax()`; `(cumulative - peak)/peak`. -/
noncomputable def drawdownList (rs : List ℝ) : List ℝ :=
  List.zipWith (fun c p => (c - p) / p) (wealthCurve rs) (cummax (wealthCurve rs))

/-- Line 90: `drawdown.min()`. -/
noncomputable def maxDrawdown (rs : List ℝ) : ℝ := listMin (drawdownList rs)

/-- The five statistics printed by the numeric branch of the report. -/
structure PerfReport where
  cumulativeReturn : ℝ
  annualizedReturn : ℝ
  annualizedVolatility : ℝ
  sharpeRatio : ℝ
  maxDrawdown : ℝ

/-- The outcome of `get_performance_report`: either the explicit
"Not enough data for calculation." placeholder string, which carries no
statistic, or the numeric report. -/
inductive ReportResult where
  | insufficientData : ReportResult
  | stats : PerfReport → ReportResult

/-- Lines 68-101: drop the undefined entries, return the placeholder when
fewer than two remain, otherwise the five statistics. -/
noncomputable def get_performance_report (daily_returns : List (Option ℝ)) :
    ReportResult :=
  if (dropna daily_returns).length < 2 then ReportResult.insufficientData
  else ReportResult.stats
    { cumulativeReturn := cumulativeReturn (dropna daily_returns)
      annualizedReturn := annualizedReturn (dropna daily_returns)
      annualizedVolatility := annualizedVolatility (dropna daily_returns)
      sharpeRatio := sharpeRatio (dropna daily_returns)
      maxDrawdown := maxDrawdown (dropna daily_returns) }

/-- Forward fill of a partially defined column: an undefined entry takes the
last defined value before it, `start` before any defined value. -/
def ffillAux (start : ℤ) : List (Option ℤ) → List ℤ
  | [] => []
  | some v :: xs => v :: ffillAux v xs
  | none :: xs => start :: ffillAux start xs

/-- The Position series as the spec words it: the forward fill of the signal
series, where the signal counts as computed at row `i` exactly when both
rolling means are defined there, and every row before any computed signal is
Flat (0). -/
def positionSpecList (sw lw : Nat) (close : List ℚ) : List ℤ :=
  ffillAux 0 ((List.range close.length).map fun i =>
    if (sma sw close i).isSome ∧ (sma lw close i).isSome then
      some (signal sw lw close i)
    else none)

/-- Spec wording for the drawdown: wealth after the first `i + 1` returns,
`W_i = Π_{k ≤ i} (1 + r_k)`. -/
def specWealth (rs : List ℝ) (i : Nat) : ℝ :=
  ((rs.take (i + 1)).map (fun r => 1 + r)).prod

/-- Spec wording for the drawdown: the running peak `P_i = max(W_0 .. W_i)`. -/
def specPeak (rs : List ℝ) (i : Nat) : ℝ :=
  listMax ((List.range (i + 1)).map fun k => specWealth rs k)

/-- Spec wording for the drawdown: `drawdown_i = (W_i - P_i) / P_i`. -/
noncomputable def specDrawdown (rs : List ℝ) (i : Nat) : ℝ :=
  (specWealth rs i - specPeak rs i) / specPeak rs i

/-! ## Toolkit lemmas -/

lemma replaceZeroFfillAux_one (xs : List ℤ) (h : ∀ x ∈ xs, x = 0 ∨ x = 1)
    (j : Nat) (hj : j < xs.length) :
    (replaceZeroFfillAux (some 1) xs)[j]? = some 1 := by
  induction xs generalizing j with
  | nil => simp at hj
  | cons x xs ih =>
    have hstep : replaceZeroFfillAux (some 1) (x :: xs) =
        1 :: replaceZeroFfillAux (some 1) xs := by
      rcases h x (by simp) with hx | hx <;> subst hx <;> rfl
    rw [hstep]
    cases j with
    | zero => exact List.getElem?_cons_zero
    | succ n =>
      rw [List.getElem?_cons_succ]
      exact ih (fun y hy => h y (by simp [hy])) n (by simpa using hj)

lemma replaceZeroFfillAux_none_mono (xs : List ℤ) (h : ∀ x ∈ xs, x = 0 ∨ x = 1)
    (i j : Nat) (hij : i ≤ j) (hj : j < xs.length)
    (hi : (replaceZeroFfillAux none xs)[i]? = some 1) :
    (replaceZeroFfillAux none xs)[j]? = some 1 := by
  induction xs generalizing i j with
  | nil => simp at hj
  | cons x xs ih =>
    rcases h x (by simp) with hx | hx
    · subst hx
      have hstep : replaceZeroFfillAux none (0 :: xs) =
          0 :: replaceZeroFfillAux none xs := rfl
      rw [hstep] at hi ⊢
      cases i with
      | zero => simp at hi
      | succ n =>
        cases j with
        | zero => exact absurd hij (by omega)
        | succ m =>
          rw [List.getElem?_cons_succ] at hi ⊢
          exact ih (fun y hy => h y (by simp [hy])) n m (by omega) (by simpa using hj) hi
    · subst hx
      have hstep : replaceZeroFfillAux none (1 :: xs) =
          1 :: replaceZeroFfillAux (some 1) xs := rfl
      rw [hstep]
      cases j with
      | zero => exact List.getElem?_cons_zero
      | succ m =>
        rw [List.getElem?_cons_succ]
        exact replaceZeroFfillAux_one xs (fun y hy => h y (by simp [hy])) m (by simpa using hj)

lemma signal_mem_01 (sw lw : Nat) (close : List ℚ) (i : Nat) :
    signal sw lw close i = 0 ∨ signal sw lw close i = 1 := by
  unfold signal
  cases sma sw close i with
  | none => exact Or.inl rfl
  | some s =>
    cases sma lw close i with
    | none => exact Or.inl rfl
    | some l =>
      by_cases hls : l < s
      · exact Or.inr (by simp [hls])
      · exact Or.inl (by simp [hls])

lemma signalList_length (sw lw : Nat) (close : List ℚ) :
    (signalList sw lw close).length = close.length := by
  simp [signalList]

lemma shift1Aux_length (prev : ℤ) (xs : List ℤ) :
    (shift1Aux prev xs).length = xs.length := by
  induction xs generalizing prev with
  | nil => rfl
  | cons x xs ih => simp [shift1Aux, ih]

lemma shift1_length (xs : List ℤ) : (shift1 xs).length = xs.length := by
  cases xs with
  | nil => rfl
  | cons x xs => simp [shift1, shift1Aux_length]

lemma shift1Aux_get (prev : ℤ) (xs : List ℤ) (n : Nat) (hn : n < xs.length) :
    (shift1Aux prev xs)[n]? = some ((prev :: xs)[n]?) := by
  induction xs generalizing prev n with
  | nil => simp at hn
  | cons x xs ih =>
    cases n with
    | zero => simp [shift1Aux]
    | succ n =>
      rw [show shift1Aux prev (x :: xs) = some prev :: shift1Aux x xs from rfl,
        List.getElem?_cons_succ, List.getElem?_cons_succ]
      exact ih x n (by simpa using hn)

lemma shift1_get (sig : List ℤ) (i : Nat) (hi : i < sig.length) :
    (shift1 sig)[i]? = some (if i = 0 then none else sig[i - 1]?) := by
  cases sig with
  | nil => simp at hi
  | cons x xs =>
    cases i with
    | zero => simp [shift1]
    | succ n =>
      rw [show shift1 (x :: xs) = none :: shift1Aux x xs from rfl,
        List.getElem?_cons_succ, shift1Aux_get x xs n (by simpa using hi)]
      simp

lemma markerList_get (a b : ℤ) (sig : List ℤ) (i : Nat) :
    (List.zipWith (fun s prev => s == a && prev == some b) sig (shift1 sig))[i]? =
        some true ↔
      (1 ≤ i ∧ sig[i]? = some a ∧ sig[i - 1]? = some b) := by
  by_cases hi : i < sig.length
  · rw [List.getElem?_zipWith, List.getElem?_eq_getElem hi, shift1_get sig i hi]
    cases i with
    | zero => simp
    | succ n => simp [beq_iff_eq]
  · have hlen : sig.length ≤ i := Nat.le_of_not_lt hi
    have h1 : (List.zipWith (fun s prev => s == a && prev == some b) sig
        (shift1 sig))[i]? = none := by
      apply List.getElem?_eq_none
      rw [List.length_zipWith, shift1_length]
      omega
    have h2 : sig[i]? = none := List.getElem?_eq_none hlen
    rw [h1, h2]
    simp

/-- Claim C8: the crossover markers of `plot_signals` fire a buy exactly at
the rows `i ≥ 1` with `signal[i-1] = 0` and `signal[i] = 1`, a sell exactly
at the rows `i ≥ 1` with `signal[i-1] = 1` and `signal[i] = 0`, and nothing
anywhere else (row 0 included); the signal `[0,0,1,1,0]` yields exactly one
buy (at the 0-to-1 transition) and one sell (at the 1-to-0 transition). -/
theorem c8_crossover_markers (sig : List ℤ) (i : Nat) :
    ((buySignals sig)[i]? = some true ↔
      (1 ≤ i ∧ sig[i]? = some 1 ∧ sig[i - 1]? = some 0)) ∧
    ((sellSignals sig)[i]? = some true ↔
      (1 ≤ i ∧ sig[i]? = some 0 ∧ sig[i - 1]? = some 1)) ∧
    buySignals [0, 0, 1, 1, 0] = [false, false, true, false, false] ∧
    sellSignals [0, 0, 1, 1, 0] = [false, false, false, false, true] := by
  refine ⟨markerList_get 1 0 sig i, markerList_get 0 1 sig i, ?_, ?_⟩ <;> rfl

lemma pctChangeAux_length (prev : ℚ) (xs : List ℚ) :
    (pctChangeAux prev xs).length = xs.length := by
  induction xs generalizing prev with
  | nil => rfl
  | cons x xs ih => simp [pctChangeAux, ih]

lemma pctChange_length (close : List ℚ) : (pctChange close).length = close.length := by
  cases close with
  | nil => rfl
  | cons c rest => simp [pctChange, pctChangeAux_length]

lemma pctChangeAux_get (prev : ℚ) (xs : List ℚ) (n : Nat) (ci cp : ℚ)
    (hci : xs[n]? = some ci) (hcp : (prev :: xs)[n]? = some cp) :
    (pctChangeAux prev xs)[n]? = some (some (ci / cp - 1)) := by
  induction xs generalizing prev n with
  | nil => simp at hci
  | cons x xs ih =>
    cases n with
    | zero =>
      rw [List.getElem?_cons_zero] at hci
      rw [List.getElem?_cons_zero] at hcp
      obtain rfl : x = ci := by simpa using hci
      obtain rfl : prev = cp := by simpa using hcp
      simp [pctChangeAux]
    | succ n =>
      rw [show pctChangeAux prev (x :: xs) = some (x / prev - 1) :: pctChangeAux x xs
          from rfl, List.getElem?_cons_succ]
      exact ih x n (by simpa using hci) (by simpa using hcp)

/-- Claim C7: `calculate_returns` on a nonempty positive price series makes
the daily return undefined at row 0 and `close[i]/close[i-1] - 1` at every
later row; the strategy return is the row-wise product of the daily return
and the position, so it is the full daily return when the position is Long
(1) and exactly zero when it is Flat (0); and a constant price series has
daily return 0 at every defined row. -/
theorem c7_returns (close : List ℚ) (pos : List ℤ)
    (hne : 1 ≤ close.length) (hpos : ∀ c ∈ close, 0 < c) :
    (pctChange close).head? = some none ∧
    (∀ (i : Nat) (ci cp : ℚ), 1 ≤ i → close[i]? = some ci → close[i - 1]? = some cp →
      (pctChange close)[i]? = some (some (ci / cp - 1))) ∧
    (∀ (i : Nat) (d : Option ℚ) (p : ℤ), (pctChange close)[i]? = some d →
      pos[i]? = some p →
      (strategyReturnList (pctChange close) pos)[i]? =
        some (d.map (fun x => x * (p : ℚ)))) ∧
    (∀ (i : Nat) (x : ℚ), (pctChange close)[i]? = some (some x) → pos[i]? = some 1 →
      (strategyReturnList (pctChange close) pos)[i]? = some (some x)) ∧
    (∀ (i : Nat) (x : ℚ), (pctChange close)[i]? = some (some x) → pos[i]? = some 0 →
      (strategyReturnList (pctChange close) pos)[i]? = some (some 0)) ∧
    ((∀ a ∈ close, ∀ b ∈ close, a = b) →
      ∀ (i : Nat) (x : ℚ), (pctChange close)[i]? = some (some x) → x = 0) := by
  obtain ⟨c, rest, rfl⟩ : ∃ c rest, close = c :: rest := by
    cases close with
    | nil => simp at hne
    | cons c rest => exact ⟨c, rest, rfl⟩
  have hzip : ∀ (i : Nat) (d : Option ℚ) (p : ℤ),
      (pctChange (c :: rest))[i]? = some d → pos[i]? = some p →
      (strategyReturnList (pctChange (c :: rest)) pos)[i]? =
        some (d.map (fun x => x * (p : ℚ))) := by
    intro i d p hd hp
    rw [strategyReturnList, List.getElem?_zipWith, hd, hp]
  have hformula : ∀ (i : Nat) (ci cp : ℚ), 1 ≤ i → (c :: rest)[i]? = some ci →
      (c :: rest)[i - 1]? = some cp →
      (pctChange (c :: rest))[i]? = some (some (ci / cp - 1)) := by
    intro i ci cp h1 hci hcp
    obtain ⟨n, rfl⟩ : ∃ n, i = n + 1 := ⟨i - 1, by omega⟩
    rw [show pctChange (c :: rest) = none :: pctChangeAux c rest from rfl,
      List.getElem?_cons_succ]
    exact pctChangeAux_get c rest n ci cp (by simpa using hci) (by simpa using hcp)
  refine ⟨rfl, hformula, hzip, ?_, ?_, ?_⟩
  · intro i x hd hp
    simpa using hzip i (some x) 1 hd hp
  · intro i x hd hp
    simpa using hzip i (some x) 0 hd hp
  · intro hconst i x hx
    cases i with
    | zero =>
      rw [show pctChange (c :: rest) = none :: pctChangeAux c rest from rfl,
        List.getElem?_cons_zero] at hx
      simp at hx
    | succ n =>
      rw [show pctChange (c :: rest) = none :: pctChangeAux c rest from rfl,
        List.getElem?_cons_succ] at hx
      have hn : n < rest.length := by
        by_contra hcon
        rw [List.getElem?_eq_none (by rw [pctChangeAux_length]; omega)] at hx
        exact Option.noConfusion hx
      obtain ⟨ci, hci⟩ : ∃ ci, rest[n]? = some ci := by
        rcases hg : rest[n]? with _ | ci
        · rw [List.getElem?_eq_none_iff] at hg
          omega
        · exact ⟨ci, rfl⟩
      obtain ⟨cp, hcp⟩ : ∃ cp, (c :: rest)[n]? = some cp := by
        rcases hg : (c :: rest)[n]? with _ | cp
        · rw [List.getElem?_eq_none_iff] at hg
          simp at hg
          omega
        · exact ⟨cp, rfl⟩
      rw [pctChangeAux_get c rest n ci cp hci hcp] at hx
      have hx2 : ci / cp - 1 = x := by simpa using hx
      have hmem1 : ci ∈ c :: rest :=
        List.mem_cons_of_mem c (List.getElem?_mem hci)
      have hmem2 : cp ∈ c :: rest := List.getElem?_mem hcp
      have heq : ci = cp := hconst _ hmem1 _ hmem2
      rw [← hx2, heq, div_self (ne_of_gt (hpos _ hmem2)), sub_self]

theorem c7_returns_witness :
    1 ≤ ([(2 : ℚ), 3] : List ℚ).length ∧ (∀ c ∈ ([(2 : ℚ), 3] : List ℚ), 0 < c) ∧
    ((pctChange [(2 : ℚ), 3]).head? = some none ∧
    (∀ (i : Nat) (ci cp : ℚ), 1 ≤ i → ([(2 : ℚ), 3] : List ℚ)[i]? = some ci →
      ([(2 : ℚ), 3] : List ℚ)[i - 1]? = some cp →
      (pctChange [(2 : ℚ), 3])[i]? = some (some (ci / cp - 1))) ∧
    (∀ (i : Nat) (d : Option ℚ) (p : ℤ), (pctChange [(2 : ℚ), 3])[i]? = some d →
      ([1, 1] : List ℤ)[i]? = some p →
      (strategyReturnList (pctChange [(2 : ℚ), 3]) [1, 1])[i]? =
        some (d.map (fun x => x * (p : ℚ)))) ∧
    (∀ (i : Nat) (x : ℚ), (pctChange [(2 : ℚ), 3])[i]? = some (some x) →
      ([1, 1] : List ℤ)[i]? = some 1 →
      (strategyReturnList (pctChange [(2 : ℚ), 3]) [1, 1])[i]? = some (some x)) ∧
    (∀ (i : Nat) (x : ℚ), (pctChange [(2 : ℚ), 3])[i]? = some (some x) →
      ([1, 1] : List ℤ)[i]? = some 0 →
      (strategyReturnList (pctChange [(2 : ℚ), 3]) [1, 1])[i]? = some (some 0)) ∧
    ((∀ a ∈ ([(2 : ℚ), 3] : List ℚ), ∀ b ∈ ([(2 : ℚ), 3] : List ℚ), a = b) →
      ∀ (i : Nat) (x : ℚ), (pctChange [(2 : ℚ), 3])[i]? = some (some x) → x = 0)) := by
  have hp : ∀ c ∈ ([(2 : ℚ), 3] : List ℚ), 0 < c := by
    intro c hc
    rcases List.mem_cons.mp hc with rfl | hc
    · norm_num
    rcases List.mem_cons.mp hc with rfl | hc
    · norm_num
    simp at hc
  exact ⟨by norm_num, hp, c7_returns [2, 3] [1, 1] (by norm_num) hp⟩

/-- Claim C1 (code evidence): with closes `[1, 2, 1]` and windows `(1, 2)` the
signal goes Long at row 1 and genuinely back to Flat at row 2, the forward
fill of the signal described by the spec is therefore Flat at row 2, but the
Position column computed by the code stays Long at row 2: the
`replace(to_replace=0, method='ffill')` call erases the Flat decision. -/
theorem c1_position_is_not_signal_ffill :
    signalList 1 2 [1, 2, 1] = [0, 1, 0] ∧
    positionList 1 2 [1, 2, 1] = [0, 1, 1] ∧
    positionSpecList 1 2 [1, 2, 1] = [0, 1, 0] := by
  norm_num [signalList, positionList, positionSpecList, signal, sma, windowMean,
    replaceZeroFfill, replaceZeroFfillAux, ffillAux, List.range_succ]

/-- Claim C2: at a row where both rolling means are defined the signal is
Long (1) exactly when the short mean strictly exceeds the long one, equality
gives Flat (0), and at a row where either mean is undefined the signal is
Flat (0). -/
theorem c2_signal_rule (sw lw : Nat) (close : List ℚ) (i : Nat)
    (hsw : 0 < sw) (hwin : sw < lw) :
    (∀ s l : ℚ, sma sw close i = some s → sma lw close i = some l →
      ((signal sw lw close i = 1 ↔ l < s) ∧ (s = l → signal sw lw close i = 0))) ∧
    ((sma sw close i = none ∨ sma lw close i = none) → signal sw lw close i = 0) := by
  constructor
  · intro s l hs hl
    unfold signal
    rw [hs, hl]
    constructor
    · by_cases hls : l < s <;> simp [hls]
    · intro he
      subst he
      simp
  · intro h
    unfold signal
    rcases h with h | h
    · rw [h]
    · rw [h]
      cases sma sw close i <;> rfl

theorem c2_signal_rule_witness :
    0 < 1 ∧ 1 < 2 ∧
    ((∀ s l : ℚ, sma 1 [1, 2] 1 = some s → sma 2 [1, 2] 1 = some l →
      ((signal 1 2 [1, 2] 1 = 1 ↔ l < s) ∧ (s = l → signal 1 2 [1, 2] 1 = 0))) ∧
    ((sma 1 [1, 2] 1 = none ∨ sma 2 [1, 2] 1 = none) → signal 1 2 [1, 2] 1 = 0)) :=
  ⟨Nat.one_pos, Nat.one_lt_two, c2_signal_rule 1 2 [1, 2] 1 Nat.one_pos Nat.one_lt_two⟩

/-- Claim C4: fewer than two defined return values make the report the
explicitly marked insufficient-data placeholder, which carries no numeric
statistic; the (total) function returns it rather than failing. -/
theorem c4_insufficient_data (daily_returns : List (Option ℝ))
    (h : (dropna daily_returns).length < 2) :
    get_performance_report daily_returns = ReportResult.insufficientData := by
  unfold get_performance_report
  rw [if_pos h]

theorem c4_insufficient_data_witness :
    (dropna [none, some ((1 : ℝ)/2)]).length < 2 ∧
    get_performance_report [none, some ((1 : ℝ)/2)] = ReportResult.insufficientData := by
  have h : (dropna [none, some ((1 : ℝ)/2)]).length < 2 := by simp [dropna]
  exact ⟨h, c4_insufficient_data _ h⟩

/-- Claim C9: the engine only reads the caller-owned price series: after
`calculate_signals` and `calculate_returns` (in either composition) the
(date, close) columns of the frame are the caller's original ones, and both
functions are pure functions of the frame. -/
theorem c9_engine_reads_only (df : Frame) (sw lw : Nat) :
    (calculate_signals df sw lw).dates = df.dates ∧
    (calculate_signals df sw lw).close = df.close ∧
    (calculate_returns (calculate_signals df sw lw)).dates = df.dates ∧
    (calculate_returns (calculate_signals df sw lw)).close = df.close ∧
    (calculate_returns df).dates = df.dates ∧
    (calculate_returns df).close = df.close :=
  ⟨rfl, rfl, rfl, rfl, rfl, rfl⟩

lemma report_stats_eq (daily_returns : List (Option ℝ)) (rep : PerfReport)
    (h : get_performance_report daily_returns = ReportResult.stats rep) :
    2 ≤ (dropna daily_returns).length ∧
    rep = { cumulativeReturn := cumulativeReturn (dropna daily_returns)
            annualizedReturn := annualizedReturn (dropna daily_returns)
            annualizedVolatility := annualizedVolatility (dropna daily_returns)
            sharpeRatio := sharpeRatio (dropna daily_returns)
            maxDrawdown := maxDrawdown (dropna daily_returns) } := by
  unfold get_performance_report at h
  by_cases hlen : (dropna daily_returns).length < 2
  · rw [if_pos hlen] at h
    exact ReportResult.noConfusion h
  · rw [if_neg hlen] at h
    injection h with h2
    exact ⟨Nat.le_of_not_lt hlen, h2.symm⟩

/-- Claim C3: the annualisation branch of the report: with more than 252 kept
observations the annualised return is the geometric
`(1 + cumulative) ^ (252/N) - 1`, with at most 252 (so also exactly at the
boundary `N = 252`) it is the cumulative return unchanged. -/
theorem c3_annualization (daily_returns : List (Option ℝ)) (rep : PerfReport)
    (h : get_performance_report daily_returns = ReportResult.stats rep) :
    (252 < (dropna daily_returns).length →
      rep.annualizedReturn =
        (1 + rep.cumulativeReturn) ^ ((252 : ℝ) / ((dropna daily_returns).length : ℝ))
          - 1) ∧
    ((dropna daily_returns).length ≤ 252 →
      rep.annualizedReturn = rep.cumulativeReturn) := by
  obtain ⟨-, rfl⟩ := report_stats_eq daily_returns rep h
  constructor
  · intro hgt
    show annualizedReturn (dropna daily_returns) =
      (1 + cumulativeReturn (dropna daily_returns)) ^
        ((252 : ℝ) / ((dropna daily_returns).length : ℝ)) - 1
    rw [annualizedReturn, if_pos hgt]
  · intro hle
    show annualizedReturn (dropna daily_returns) = cumulativeReturn (dropna daily_returns)
    rw [annualizedReturn, if_neg (Nat.not_lt.mpr hle)]

/-- Claim C5: the Sharpe ratio of the report is annualised return over
annualised volatility when the volatility is non-zero, and exactly 0 when the
volatility is zero; the zero case is substituted locally, never an error. -/
theorem c5_sharpe_ratio (daily_returns : List (Option ℝ)) (rep : PerfReport)
    (h : get_performance_report daily_returns = ReportResult.stats rep) :
    (rep.annualizedVolatility ≠ 0 →
      rep.sharpeRatio = rep.annualizedReturn / rep.annualizedVolatility) ∧
    (rep.annualizedVolatility = 0 → rep.sharpeRatio = 0) := by
  obtain ⟨-, rfl⟩ := report_stats_eq daily_returns rep h
  constructor
  · intro hv
    show sharpeRatio (dropna daily_returns) =
      annualizedReturn (dropna daily_returns) / annualizedVolatility (dropna daily_returns)
    rw [sharpeRatio, if_pos hv]
  · intro hv
    show sharpeRatio (dropna daily_returns) = 0
    rw [sharpeRatio, if_neg (by simpa using hv)]

lemma report_eval_00 :
    get_performance_report [some (0 : ℝ), some 0] =
      ReportResult.stats ⟨0, 0, 0, 0, 0⟩ := by
  have hd : dropna [some (0 : ℝ), some 0] = [0, 0] := by simp [dropna]
  unfold get_performance_report
  rw [hd]
  norm_num [cumulativeReturn, annualizedReturn, annualizedVolatility, sampleStd,
    mean, sharpeRatio, maxDrawdown, drawdownList, wealthCurve, cumprod, cumprodAux,
    cummax, cummaxAux, listMin, Real.sqrt_zero, PerfReport.mk.injEq]

lemma report_eval_half :
    get_performance_report [some ((1 : ℝ)/2), some ((1 : ℝ)/2)] =
      ReportResult.stats ⟨5/4, 5/4, 0, 0, 0⟩ := by
  have hd : dropna [some ((1 : ℝ)/2), some ((1 : ℝ)/2)] = [1/2, 1/2] := by simp [dropna]
  have hmax : max ((3 : ℝ)/2) (1 * (3/2) * (3/2)) = 9/4 := by
    rw [max_eq_right] <;> norm_num
  unfold get_performance_report
  rw [hd]
  norm_num [cumulativeReturn, annualizedReturn, annualizedVolatility, sampleStd,
    mean, sharpeRatio, maxDrawdown, drawdownList, wealthCurve, cumprod, cumprodAux,
    cummax, cummaxAux, listMin, hmax, Real.sqrt_zero, PerfReport.mk.injEq]

lemma report_eval_one :
    get_performance_report [some (1 : ℝ), some 1] =
      ReportResult.stats ⟨3, 3, 0, 0, 0⟩ := by
  have hd : dropna [some (1 : ℝ), some 1] = [1, 1] := by simp [dropna]
  have hmax : max (2 : ℝ) (1 * 2 * 2) = 4 := by
    rw [max_eq_right] <;> norm_num
  unfold get_performance_report
  rw [hd]
  norm_num [cumulativeReturn, annualizedReturn, annualizedVolatility, sampleStd,
    mean, sharpeRatio, maxDrawdown, drawdownList, wealthCurve, cumprod, cumprodAux,
    cummax, cummaxAux, listMin, hmax, Real.sqrt_zero, PerfReport.mk.injEq]

theorem c3_annualization_witness :
    get_performance_report [some (0 : ℝ), some 0] =
      ReportResult.stats ⟨0, 0, 0, 0, 0⟩ ∧
    ((252 < (dropna [some (0 : ℝ), some 0]).length →
      (⟨0, 0, 0, 0, 0⟩ : PerfReport).annualizedReturn =
        (1 + (⟨0, 0, 0, 0, 0⟩ : PerfReport).cumulativeReturn) ^
          ((252 : ℝ) / ((dropna [some (0 : ℝ), some 0]).length : ℝ)) - 1) ∧
    ((dropna [some (0 : ℝ), some 0]).length ≤ 252 →
      (⟨0, 0, 0, 0, 0⟩ : PerfReport).annualizedReturn =
        (⟨0, 0, 0, 0, 0⟩ : PerfReport).cumulativeReturn)) :=
  ⟨report_eval_00, c3_annualization _ _ report_eval_00⟩

theorem c5_sharpe_ratio_witness :
    get_performance_report [some ((1 : ℝ)/2), some ((1 : ℝ)/2)] =
      ReportResult.stats ⟨5/4, 5/4, 0, 0, 0⟩ ∧
    (((⟨5/4, 5/4, 0, 0, 0⟩ : PerfReport).annualizedVolatility ≠ 0 →
      (⟨5/4, 5/4, 0, 0, 0⟩ : PerfReport).sharpeRatio =
        (⟨5/4, 5/4, 0, 0, 0⟩ : PerfReport).annualizedReturn /
          (⟨5/4, 5/4, 0, 0, 0⟩ : PerfReport).annualizedVolatility) ∧
    ((⟨5/4, 5/4, 0, 0, 0⟩ : PerfReport).annualizedVolatility = 0 →
      (⟨5/4, 5/4, 0, 0, 0⟩ : PerfReport).sharpeRatio = 0)) :=
  ⟨report_eval_half, c5_sharpe_ratio _ _ report_eval_half⟩

lemma cumprodAux_length (a : ℝ) (xs : List ℝ) :
    (cumprodAux a xs).length = xs.length := by
  induction xs generalizing a with
  | nil => rfl
  | cons x xs ih => simp [cumprodAux, ih]

lemma cummaxAux_length (a : ℝ) (xs : List ℝ) :
    (cummaxAux a xs).length = xs.length := by
  induction xs generalizing a with
  | nil => rfl
  | cons x xs ih => simp [cummaxAux, ih]

lemma cummax_length (xs : List ℝ) : (cummax xs).length = xs.length := by
  cases xs with
  | nil => rfl
  | cons x xs => simp [cummax, cummaxAux_length]

lemma cumprodAux_get (a : ℝ) (xs : List ℝ) (i : Nat) (hi : i < xs.length) :
    (cumprodAux a xs)[i]? = some (a * (xs.take (i + 1)).prod) := by
  induction xs generalizing a i with
  | nil => simp at hi
  | cons x xs ih =>
    cases i with
    | zero => simp [cumprodAux]
    | succ n =>
      rw [show cumprodAux a (x :: xs) = a * x :: cumprodAux (a * x) xs from rfl,
        List.getElem?_cons_succ, ih (a * x) n (by simpa using hi),
        List.take_succ_cons, List.prod_cons]
      congr 1
      ring

lemma wealthCurve_length (rs : List ℝ) : (wealthCurve rs).length = rs.length := by
  simp [wealthCurve, cumprod, cumprodAux_length]

lemma wealthCurve_get (rs : List ℝ) (i : Nat) (hi : i < rs.length) :
    (wealthCurve rs)[i]? = some (specWealth rs i) := by
  rw [wealthCurve, cumprod, cumprodAux_get 1 _ i (by simpa using hi), one_mul,
    specWealth, List.map_take]

lemma wealthCurve_eq_map (rs : List ℝ) :
    wealthCurve rs = (List.range rs.length).map fun k => specWealth rs k := by
  apply List.ext_getElem?
  intro i
  by_cases hi : i < rs.length
  · rw [wealthCurve_get rs i hi, List.getElem?_map, List.getElem?_range hi]
    rfl
  · rw [List.getElem?_eq_none (by rw [wealthCurve_length]; omega),
      List.getElem?_eq_none (by simp; omega)]

lemma cummaxAux_get (a : ℝ) (xs : List ℝ) (i : Nat) (hi : i < xs.length) :
    (cummaxAux a xs)[i]? = some ((xs.take (i + 1)).foldl max a) := by
  induction xs generalizing a i with
  | nil => simp at hi
  | cons x xs ih =>
    cases i with
    | zero => simp [cummaxAux]
    | succ n =>
      rw [show cummaxAux a (x :: xs) = max a x :: cummaxAux (max a x) xs from rfl,
        List.getElem?_cons_succ, ih (max a x) n (by simpa using hi),
        List.take_succ_cons, List.foldl_cons]

lemma cummax_get (xs : List ℝ) (i : Nat) (hi : i < xs.length) :
    (cummax xs)[i]? = some (listMax (xs.take (i + 1))) := by
  cases xs with
  | nil => simp at hi
  | cons x xs =>
    cases i with
    | zero => simp [cummax, listMax]
    | succ n =>
      rw [show cummax (x :: xs) = x :: cummaxAux x xs from rfl,
        List.getElem?_cons_succ, cummaxAux_get x xs n (by simpa using hi),
        List.take_succ_cons]
      rfl

lemma foldl_min_le_init (xs : List ℝ) (a : ℝ) : xs.foldl min a ≤ a := by
  induction xs generalizing a with
  | nil => exact le_refl a
  | cons x xs ih => exact le_trans (ih (min a x)) (min_le_left a x)

lemma foldl_min_le_mem (xs : List ℝ) (a x : ℝ) (hx : x ∈ xs) :
    xs.foldl min a ≤ x := by
  induction xs generalizing a with
  | nil => simp at hx
  | cons y ys ih =>
    rcases List.mem_cons.mp hx with rfl | hx2
    · exact le_trans (foldl_min_le_init ys (min a x)) (min_le_right a x)
    · exact ih (min a y) hx2

lemma foldl_min_mem (xs : List ℝ) (a : ℝ) :
    xs.foldl min a = a ∨ xs.foldl min a ∈ xs := by
  induction xs generalizing a with
  | nil => exact Or.inl rfl
  | cons x xs ih =>
    rcases ih (min a x) with h | h
    · rw [List.foldl_cons, h]
      rcases min_choice a x with h2 | h2
      · exact Or.inl h2
      · exact Or.inr (by rw [h2]; exact List.mem_cons_self x xs)
    · exact Or.inr (List.mem_cons_of_mem x (by rw [List.foldl_cons]; exact h))

lemma listMin_le_mem (l : List ℝ) (x : ℝ) (hx : x ∈ l) : listMin l ≤ x := by
  cases l with
  | nil => simp at hx
  | cons y ys =>
    rcases List.mem_cons.mp hx with rfl | hx2
    · exact foldl_min_le_init ys x
    · exact foldl_min_le_mem ys y x hx2

lemma listMin_mem (l : List ℝ) (hl : l ≠ []) : listMin l ∈ l := by
  cases l with
  | nil => exact absurd rfl hl
  | cons y ys =>
    rcases foldl_min_mem ys y with h | h
    · rw [listMin, h]
      exact List.mem_cons_self y ys
    · exact List.mem_cons_of_mem y h

lemma le_foldl_max_init (xs : List ℝ) (a : ℝ) : a ≤ xs.foldl max a := by
  induction xs generalizing a with
  | nil => exact le_refl a
  | cons x xs ih => exact le_trans (le_max_left a x) (ih (max a x))

lemma mem_le_foldl_max (xs : List ℝ) (a x : ℝ) (hx : x ∈ xs) :
    x ≤ xs.foldl max a := by
  induction xs generalizing a with
  | nil => simp at hx
  | cons y ys ih =>
    rcases List.mem_cons.mp hx with rfl | hx2
    · exact le_trans (le_max_right a x) (le_foldl_max_init ys (max a x))
    · exact ih (max a y) hx2

lemma foldl_max_mem (xs : List ℝ) (a : ℝ) :
    xs.foldl max a = a ∨ xs.foldl max a ∈ xs := by
  induction xs generalizing a with
  | nil => exact Or.inl rfl
  | cons x xs ih =>
    rcases ih (max a x) with h | h
    · rw [List.foldl_cons, h]
      rcases max_choice a x with h2 | h2
      · exact Or.inl h2
      · exact Or.inr (by rw [h2]; exact List.mem_cons_self x xs)
    · exact Or.inr (List.mem_cons_of_mem x (by rw [List.foldl_cons]; exact h))

lemma mem_le_listMax (l : List ℝ) (x : ℝ) (hx : x ∈ l) : x ≤ listMax l := by
  cases l with
  | nil => simp at hx
  | cons y ys =>
    rcases List.mem_cons.mp hx with rfl | hx2
    · exact le_foldl_max_init ys x
    · exact mem_le_foldl_max ys y x hx2

lemma listMax_mem (l : List ℝ) (hl : l ≠ []) : listMax l ∈ l := by
  cases l with
  | nil => exact absurd rfl hl
  | cons y ys =>
    rcases foldl_max_mem ys y with h | h
    · rw [listMax, h]
      exact List.mem_cons_self y ys
    · exact List.mem_cons_of_mem y h

lemma peak_take (rs : List ℝ) (i : Nat) (hi : i < rs.length) :
    listMax ((wealthCurve rs).take (i + 1)) = specPeak rs i := by
  rw [wealthCurve_eq_map, ← List.map_take, List.take_range, min_eq_left (by omega)]
  rfl

lemma drawdownList_get (rs : List ℝ) (i : Nat) (hi : i < rs.length) :
    (drawdownList rs)[i]? = some (specDrawdown rs i) := by
  rw [drawdownList, List.getElem?_zipWith, wealthCurve_get rs i hi,
    cummax_get _ i (by rw [wealthCurve_length]; exact hi), peak_take rs i hi]
  rfl

lemma drawdownList_length (rs : List ℝ) : (drawdownList rs).length = rs.length := by
  rw [drawdownList, List.length_zipWith, wealthCurve_length, cummax_length,
    wealthCurve_length]
  exact min_self _

lemma drawdownList_eq_map (rs : List ℝ) :
    drawdownList rs = (List.range rs.length).map fun i => specDrawdown rs i := by
  apply List.ext_getElem?
  intro i
  by_cases hi : i < rs.length
  · rw [drawdownList_get rs i hi, List.getElem?_map, List.getElem?_range hi]
    rfl
  · rw [List.getElem?_eq_none (by rw [drawdownList_length]; omega),
      List.getElem?_eq_none (by simp; omega)]

lemma specWealth_pos (rs : List ℝ) (hr : ∀ r ∈ rs, -1 < r) (i : Nat) :
    0 < specWealth rs i := by
  apply List.prod_pos
  intro a ha
  rw [List.mem_map] at ha
  obtain ⟨r, hrm, rfl⟩ := ha
  have hmem : r ∈ rs := List.take_subset _ _ hrm
  linarith [hr r hmem]

lemma specWealth_le_specPeak (rs : List ℝ) (k i : Nat) (hk : k ≤ i) :
    specWealth rs k ≤ specPeak rs i := by
  apply mem_le_listMax
  rw [List.mem_map]
  exact ⟨k, List.mem_range.mpr (by omega), rfl⟩

lemma specPeak_eq_some (rs : List ℝ) (i : Nat) :
    ∃ k, k ≤ i ∧ specPeak rs i = specWealth rs k := by
  have hmem := listMax_mem ((List.range (i + 1)).map fun k => specWealth rs k) (by simp)
  rw [List.mem_map] at hmem
  obtain ⟨k, hk, he⟩ := hmem
  exact ⟨k, by have := List.mem_range.mp hk; omega, he.symm⟩

lemma specPeak_pos (rs : List ℝ) (hr : ∀ r ∈ rs, -1 < r) (i : Nat) :
    0 < specPeak rs i := by
  obtain ⟨k, -, he⟩ := specPeak_eq_some rs i
  rw [he]
  exact specWealth_pos rs hr k

lemma drawdown_example : maxDrawdown [(0.1 : ℝ), -0.2, 0.1] = -0.2 := by
  have hw : wealthCurve [(0.1 : ℝ), -0.2, 0.1] = [1.1, 0.88, 0.968] := by
    norm_num [wealthCurve, cumprod, cumprodAux]
  have h1 : max (1.1 : ℝ) 0.88 = 1.1 := max_eq_left (by norm_num)
  have h2 : max (1.1 : ℝ) 0.968 = 1.1 := max_eq_left (by norm_num)
  have hm : cummax [(1.1 : ℝ), 0.88, 0.968] = [1.1, 1.1, 1.1] := by
    simp [cummax, cummaxAux, h1, h2]
  have hd : drawdownList [(0.1 : ℝ), -0.2, 0.1] = [0, -0.2, -0.12] := by
    rw [drawdownList, hw, hm]
    norm_num [List.zipWith]
  have m1 : min (0 : ℝ) (-0.2) = -0.2 := min_eq_right (by norm_num)
  have m2 : min (-0.2 : ℝ) (-0.12) = -0.2 := min_eq_left (by norm_num)
  rw [maxDrawdown, hd, listMin]
  simp [m1, m2]

/-- Claim C6 (amended: the claim quantifies over every return series, but a
return at or below -1 makes the wealth curve non-positive and a drawdown
entry can then be strictly positive, see the counterexample; the claim holds
once every return exceeds -1): for a report over at least two kept
observations all exceeding -1, `max_drawdown` is the minimum over `i` of
`(W_i - P_i)/P_i` with `W_i = Π_{k ≤ i}(1 + r_k)` and `P_i = max(W_0..W_i)`,
every such drawdown is ≤ 0, a monotonically non-decreasing wealth curve gives
`max_drawdown = 0`, and the series `[0.10, -0.20, 0.10]` gives exactly
`-0.20`. -/
theorem c6_max_drawdown (daily_returns : List (Option ℝ)) (rep : PerfReport)
    (h : get_performance_report daily_returns = ReportResult.stats rep)
    (hr : ∀ r ∈ dropna daily_returns, -1 < r) :
    (∀ i < (dropna daily_returns).length,
      rep.maxDrawdown ≤ specDrawdown (dropna daily_returns) i) ∧
    (∃ i, i < (dropna daily_returns).length ∧
      rep.maxDrawdown = specDrawdown (dropna daily_returns) i) ∧
    (∀ i < (dropna daily_returns).length,
      specDrawdown (dropna daily_returns) i ≤ 0) ∧
    ((∀ k i, k ≤ i → i < (dropna daily_returns).length →
        specWealth (dropna daily_returns) k ≤ specWealth (dropna daily_returns) i) →
      rep.maxDrawdown = 0) ∧
    maxDrawdown [(0.1 : ℝ), -0.2, 0.1] = -0.2 := by
  obtain ⟨hlen2, rfl⟩ := report_stats_eq daily_returns rep h
  have hne : drawdownList (dropna daily_returns) ≠ [] := by
    intro hcon
    have hl := drawdownList_length (dropna daily_returns)
    rw [hcon] at hl
    simp at hl
    omega
  have hmem := listMin_mem _ hne
  rw [drawdownList_eq_map, List.mem_map] at hmem
  obtain ⟨i0, hi0, he0⟩ := hmem
  have hmin_eq : maxDrawdown (dropna daily_returns) =
      specDrawdown (dropna daily_returns) i0 := by
    rw [maxDrawdown, drawdownList_eq_map]
    exact he0.symm
  refine ⟨?_, ?_, ?_, ?_, drawdown_example⟩
  · intro i hi
    show maxDrawdown (dropna daily_returns) ≤ specDrawdown (dropna daily_returns) i
    rw [maxDrawdown]
    apply listMin_le_mem
    rw [drawdownList_eq_map, List.mem_map]
    exact ⟨i, List.mem_range.mpr hi, rfl⟩
  · exact ⟨i0, List.mem_range.mp hi0, hmin_eq⟩
  · intro i hi
    have hWP := specWealth_le_specPeak (dropna daily_returns) i i (le_refl i)
    have hP := specPeak_pos (dropna daily_returns) hr i
    rw [specDrawdown]
    apply div_nonpos_of_nonpos_of_nonneg (sub_nonpos.mpr hWP) hP.le
  · intro hmono
    show maxDrawdown (dropna daily_returns) = 0
    rw [hmin_eq]
    have hi0lt : i0 < (dropna daily_returns).length := List.mem_range.mp hi0
    have hPW : specPeak (dropna daily_returns) i0 = specWealth (dropna daily_returns) i0 := by
      apply le_antisymm
      · obtain ⟨k, hk, he⟩ := specPeak_eq_some (dropna daily_returns) i0
        rw [he]
        exact hmono k i0 hk hi0lt
      · exact specWealth_le_specPeak (dropna daily_returns) i0 i0 (le_refl i0)
    rw [specDrawdown, hPW, sub_self, zero_div]

/-- Claim C6 counterexample to the unrestricted claim: on the return series
`[-2, 1/2]` the wealth curve is `[-1, -3/2]`, the running peak is `[-1, -1]`,
and the drawdown at row 1 is `1/2 > 0`, so "every drawdown is ≤ 0" fails for
a series holding a return below -1. -/
theorem c6_drawdown_can_be_positive :
    specDrawdown [(-2 : ℝ), 1/2] 1 = 1/2 ∧
    drawdownList [(-2 : ℝ), 1/2] = [0, 1/2] ∧
    ¬ ((1 : ℝ)/2 ≤ 0) := by
  have hmax : max (-1 : ℝ) (1 * -1 * (1 + 1/2)) = -1 := max_eq_left (by norm_num)
  refine ⟨?_, ?_, by norm_num⟩
  · norm_num [specDrawdown, specWealth, specPeak, listMax, List.range_succ, hmax]
  · norm_num [drawdownList, wealthCurve, cumprod, cumprodAux, cummax, cummaxAux,
      hmax, List.zipWith]

theorem c6_max_drawdown_witness :
    get_performance_report [some (1 : ℝ), some 1] =
      ReportResult.stats ⟨3, 3, 0, 0, 0⟩ ∧
    (∀ r ∈ dropna [some (1 : ℝ), some 1], -1 < r) ∧
    ((∀ i < (dropna [some (1 : ℝ), some 1]).length,
      (⟨3, 3, 0, 0, 0⟩ : PerfReport).maxDrawdown ≤
        specDrawdown (dropna [some (1 : ℝ), some 1]) i) ∧
    (∃ i, i < (dropna [some (1 : ℝ), some 1]).length ∧
      (⟨3, 3, 0, 0, 0⟩ : PerfReport).maxDrawdown =
        specDrawdown (dropna [some (1 : ℝ), some 1]) i) ∧
    (∀ i < (dropna [some (1 : ℝ), some 1]).length,
      specDrawdown (dropna [some (1 : ℝ), some 1]) i ≤ 0) ∧
    ((∀ k i, k ≤ i → i < (dropna [some (1 : ℝ), some 1]).length →
        specWealth (dropna [some (1 : ℝ), some 1]) k ≤
          specWealth (dropna [some (1 : ℝ), some 1]) i) →
      (⟨3, 3, 0, 0, 0⟩ : PerfReport).maxDrawdown = 0) ∧
    maxDrawdown [(0.1 : ℝ), -0.2, 0.1] = -0.2) := by
  have hr : ∀ r ∈ dropna [some (1 : ℝ), some 1], -1 < r := by
    intro r hrm
    simp [dropna] at hrm
    subst hrm
    norm_num
  exact ⟨report_eval_one, hr, c6_max_drawdown _ _ report_eval_one hr⟩

/-- Claim C10: the Position column computed by `calculate_signals` is
monotonically non-decreasing over time: once it is Long (1) at some row it is
Long at every later row of the frame, whatever the later signals are. -/
theorem c10_position_monotone (sw lw : Nat) (close : List ℚ) (i j : Nat)
    (hij : i ≤ j) (hj : j < close.length)
    (hi : (positionList sw lw close)[i]? = some 1) :
    (positionList sw lw close)[j]? = some 1 := by
  have h01 : ∀ x ∈ signalList sw lw close, x = 0 ∨ x = 1 := by
    intro x hx
    rw [signalList, List.mem_map] at hx
    obtain ⟨k, _, hk⟩ := hx
    exact hk ▸ signal_mem_01 sw lw close k
  have hj2 : j < (signalList sw lw close).length := by
    rw [signalList_length]
    exact hj
  exact replaceZeroFfillAux_none_mono _ h01 i j hij hj2 hi

theorem c10_position_monotone_witness :
    1 ≤ 2 ∧ 2 < ([(1 : ℚ), 2, 1] : List ℚ).length ∧
    (positionList 1 2 [1, 2, 1])[1]? = some 1 ∧
    (positionList 1 2 [1, 2, 1])[2]? = some 1 := by
  have h1 : (positionList 1 2 [1, 2, 1])[1]? = some 1 := by
    norm_num [positionList, signalList, signal, sma, windowMean, replaceZeroFfill,
      replaceZeroFfillAux, List.range_succ]
  exact ⟨by norm_num, by norm_num, h1,
    c10_position_monotone 1 2 [1, 2, 1] 1 2 (by norm_num) (by norm_num) h1⟩

end SMA
